import Mathlib

/-!
Verification of the soprano NMR EFG pipeline
(`soprano/properties/nmr/efg.py` and `soprano/properties/nmr/utils.py`).

Numeric values (numpy float arrays in the source) are modelled as rationals;
a per-atom eigenvalue triple is a `Vec3`, a 3×3 tensor a `Mat3`.  Isotope
identifiers (ints or strings in Python, always compared through `str`) are
modelled as `String`.  Division follows the field convention `x / 0 = 0`;
none of the verified statements depends on the value of a division by zero.
-/

/-- An ordered triple of rationals: the eigenvalue triplet of one atom
(a row of a numpy `(n,3)` array). -/
structure Vec3 where
  a : ℚ
  b : ℚ
  c : ℚ
deriving DecidableEq, Repr

/-- A 3×3 matrix given by rows: the EFG tensor of one atom. -/
structure Mat3 where
  r0 : Vec3
  r1 : Vec3
  r2 : Vec3
deriving DecidableEq, Repr

/-- `(M + M.T)/2`, the symmetrisation applied in `EFGDiagonal.extract`
before `np.linalg.eigh`. -/
def symm3 (m : Mat3) : Mat3 :=
  ⟨⟨m.r0.a, (m.r0.b + m.r1.a) / 2, (m.r0.c + m.r2.a) / 2⟩,
   ⟨(m.r1.a + m.r0.b) / 2, m.r1.b, (m.r1.c + m.r2.b) / 2⟩,
   ⟨(m.r2.a + m.r0.c) / 2, (m.r2.b + m.r1.c) / 2, m.r2.c⟩⟩

/-- `np.average(evals, axis=1)` for one row: the isotropic value. -/
def isoAvg (e : Vec3) : ℚ := (e.a + e.b + e.c) / 3

/-- One row of `_haeb_sort` (utils.py).  The source computes
`sort_i = np.argsort(np.abs(evals - iso), axis=1)[:, [1, 0, 2]]` and gathers:
with `i0, i1, i2` the (stable) argsort of the deviations `|e - iso|`, the
output row is `[e_i1, e_i0, e_i2]` — second-smallest deviation first, then
smallest, then largest.  The stable three-element argsort is unfolded into a
decision tree on the deviations. -/
def haeb_sort_row (e : Vec3) : Vec3 :=
  let iso := isoAvg e
  let d0 := |e.a - iso|
  let d1 := |e.b - iso|
  let d2 := |e.c - iso|
  if d0 ≤ d1 then
    if d1 ≤ d2 then ⟨e.b, e.a, e.c⟩        -- argsort (0,1,2)
    else if d0 ≤ d2 then ⟨e.c, e.a, e.b⟩   -- argsort (0,2,1)
    else ⟨e.a, e.c, e.b⟩                    -- argsort (2,0,1)
  else
    if d0 ≤ d2 then ⟨e.a, e.b, e.c⟩        -- argsort (1,0,2)
    else if d1 ≤ d2 then ⟨e.c, e.b, e.a⟩   -- argsort (1,2,0)
    else ⟨e.b, e.c, e.a⟩                    -- argsort (2,1,0)

/-- `_haeb_sort` (utils.py): the row operation vectorised over the batch. -/
def _haeb_sort (evals : List Vec3) : List Vec3 := evals.map haeb_sort_row

/-- `_anisotropy` (utils.py) on one row:
`(haeb_evals[:,2] - (haeb_evals[:,0] + haeb_evals[:,1])/2) * f` with
`f = 2/3` when `reduced` else `1`. -/
def _anisotropy (haeb : Vec3) (reduced : Bool) : ℚ :=
  let f : ℚ := if reduced then 2 / 3 else 1
  (haeb.c - (haeb.a + haeb.b) / 2) * f

/-- `_asymmetry` (utils.py) on one row:
`(haeb_evals[:,1] - haeb_evals[:,0]) / _anisotropy(haeb_evals, reduced=True)`. -/
def _asymmetry (haeb : Vec3) : ℚ :=
  (haeb.b - haeb.a) / _anisotropy haeb true

/-- `_span` (utils.py) on one row: `np.amax(evals) - np.amin(evals)`. -/
def _span (e : Vec3) : ℚ :=
  max e.a (max e.b e.c) - min e.a (min e.b e.c)

/-- `np.median` of one row of three: the middle value of the sorted triple. -/
def median3 (e : Vec3) : ℚ :=
  if e.a ≤ e.b then
    if e.b ≤ e.c then e.b else if e.a ≤ e.c then e.c else e.a
  else
    if e.a ≤ e.c then e.a else if e.b ≤ e.c then e.c else e.b

/-- `_skew` (utils.py) on one row:
`3 * (np.median(evals) - np.average(evals)) / _span(evals)`. -/
def _skew (e : Vec3) : ℚ :=
  3 * (median3 e - isoAvg e) / _span e

/-- The reflection of a triple about a point `m`: `e_i ↦ 2m - e_i`. -/
def reflect3 (m : ℚ) (e : Vec3) : Vec3 :=
  ⟨2 * m - e.a, 2 * m - e.b, 2 * m - e.c⟩

/-- The output deviations from the input isotropic value are ordered
mid ≤ first ≤ last, i.e. position 1 has the smallest deviation, position 0
the second-smallest, position 2 the largest. -/
def devOrdered (t r : Vec3) : Prop :=
  |r.b - isoAvg t| ≤ |r.a - isoAvg t| ∧ |r.a - isoAvg t| ≤ |r.c - isoAvg t|

/-- `r` holds the same three values as `t`, reordered. -/
def sameValues (t r : Vec3) : Prop :=
  [r.a, r.b, r.c].Perm [t.a, t.b, t.c]

/-!
A structure (`ase.Atoms`) is modelled by the pieces the pipeline touches:
the named tensor array `efg` (`none` when the structure has no such array),
the ordered chemical symbols, and the three `s.info` keys the pipeline reads
and writes (`efg_diagonal_evals`, `efg_diagonal_evals_hsort`,
`efg_diagonal_evecs`).  `np.linalg.eigh` is an external collaborator and is
passed in as a function parameter `eigh`.  Each `extract` returns the result,
the updated structure, and the number of diagonalization passes it ran.
-/

/-- One `np.linalg.eigh` result: eigenvalues and eigenvector matrix. -/
structure EigenSys where
  evals : Vec3
  evecs : Mat3
deriving DecidableEq, Repr

/-- The slice of an `ase.Atoms` object used by `efg.py`. -/
structure Atoms where
  efg : Option (List Mat3)
  symbols : List String
  info_evals : Option (List Vec3)
  info_evals_hsort : Option (List Vec3)
  info_evecs : Option (List Mat3)
deriving DecidableEq, Repr

/-- Message of `_has_efg_check` (efg.py). -/
def noEfgMsg : String :=
  "No electric field gradient data found for this system"

/-- Message raised when `_nmr_data is None` (efg.py). -/
def noNmrDataMsg : String :=
  "NMR data not available. Something may be wrong with this installation of Soprano"

/-- The unsupported-element message of efg.py, with the element symbol
appended. -/
def unknownElementMsg (e : String) : String :=
  "No NMR data on element " ++ e

/-- The unsupported-isotope message of efg.py, naming the isotope and the
element. -/
def unknownIsotopeMsg (iso e : String) : String :=
  "Isotope " ++ iso ++ " does not exist for element " ++ e

/-- The record of one element in `data/nmrdata.json`: the default isotope
`iso`, the optional most-quadrupolar isotope `Q_iso`, and the quadrupole
moment `Q` of each isotope, keyed by the isotope identifier.  Python compares keys
through `str(iso)`; identifiers are modelled as strings outright. -/
structure ElementData where
  iso : String
  Q_iso : Option String
  Q : List (String × ℚ)
deriving DecidableEq, Repr

/-- The reference dataset `_nmr_data`: element symbol to record. -/
abbrev NMRData := List (String × ElementData)

/-- `EFGDiagonal.extract` (efg.py): symmetrise and diagonalise every tensor;
when `save_info`, store plain eigenvalues, Haeberlen-sorted eigenvalues and
eigenvectors under three named `s.info` entries. -/
def EFGDiagonal_extract (eigh : Mat3 → EigenSys) (s : Atoms) (save_info : Bool) :
    Except String (List EigenSys × Atoms) :=
  match s.efg with
  | none => .error noEfgMsg
  | some efgs =>
    let efg_diag := efgs.map (fun efg => eigh (symm3 efg))
    let efg_evals := efg_diag.map EigenSys.evals
    let efg_evecs := efg_diag.map EigenSys.evecs
    let s' := if save_info then
        { s with info_evals := some efg_evals,
                 info_evals_hsort := some (_haeb_sort efg_evals),
                 info_evecs := some efg_evecs }
      else s
    .ok (efg_diag, s')

/-- Modelled from the spec: the `AtomsProperty.get` dispatcher (class
`AtomsProperty`, whose module is not among the given sources) runs `extract`
with the `default_params` of the property; for `EFGDiagonal` that is
`save_info = True` (spec §4.3: write back all three entries). -/
def EFGDiagonal_get (eigh : Mat3 → EigenSys) (s : Atoms) :
    Except String (List EigenSys × Atoms) :=
  EFGDiagonal_extract eigh s true

/-- The guard shared by every derived property:
`if ((not <key> in s.info) or force_recalc): EFGDiagonal.get(s)`.
`key_present` is the membership test for the named entry of the property;
returned number counts diagonalization passes. -/
def diag_if_needed (eigh : Mat3 → EigenSys) (s : Atoms)
    (key_present force_recalc : Bool) : Except String (Atoms × ℕ) :=
  if !key_present || force_recalc then
    match EFGDiagonal_get eigh s with
    | .error msg => .error msg
    | .ok (_, s') => .ok (s', 1)
  else .ok (s, 0)

/-- `EFGVzz.extract` (efg.py): ensure `efg_diagonal_evals_hsort` is cached,
then return its last column (`efg_evals[:, -1]`). -/
def EFGVzz_extract (eigh : Mat3 → EigenSys) (s : Atoms) (force_recalc : Bool) :
    Except String (List ℚ × Atoms × ℕ) :=
  if s.efg.isNone then .error noEfgMsg else
  match diag_if_needed eigh s s.info_evals_hsort.isSome force_recalc with
  | .error msg => .error msg
  | .ok (s1, n) =>
    match s1.info_evals_hsort with
    | some efg_evals => .ok (efg_evals.map Vec3.c, s1, n)
    | none => .error "KeyError: efg_diagonal_evals_hsort"

/-- `EFGAnisotropy.extract` (efg.py). -/
def EFGAnisotropy_extract (eigh : Mat3 → EigenSys) (s : Atoms) (force_recalc : Bool) :
    Except String (List ℚ × Atoms × ℕ) :=
  if s.efg.isNone then .error noEfgMsg else
  match diag_if_needed eigh s s.info_evals_hsort.isSome force_recalc with
  | .error msg => .error msg
  | .ok (s1, n) =>
    match s1.info_evals_hsort with
    | some efg_evals => .ok (efg_evals.map (fun t => _anisotropy t false), s1, n)
    | none => .error "KeyError: efg_diagonal_evals_hsort"

/-- `EFGReducedAnisotropy.extract` (efg.py). -/
def EFGReducedAnisotropy_extract (eigh : Mat3 → EigenSys) (s : Atoms)
    (force_recalc : Bool) : Except String (List ℚ × Atoms × ℕ) :=
  if s.efg.isNone then .error noEfgMsg else
  match diag_if_needed eigh s s.info_evals_hsort.isSome force_recalc with
  | .error msg => .error msg
  | .ok (s1, n) =>
    match s1.info_evals_hsort with
    | some efg_evals => .ok (efg_evals.map (fun t => _anisotropy t true), s1, n)
    | none => .error "KeyError: efg_diagonal_evals_hsort"

/-- `EFGAsymmetry.extract` (efg.py). -/
def EFGAsymmetry_extract (eigh : Mat3 → EigenSys) (s : Atoms) (force_recalc : Bool) :
    Except String (List ℚ × Atoms × ℕ) :=
  if s.efg.isNone then .error noEfgMsg else
  match diag_if_needed eigh s s.info_evals_hsort.isSome force_recalc with
  | .error msg => .error msg
  | .ok (s1, n) =>
    match s1.info_evals_hsort with
    | some efg_evals => .ok (efg_evals.map _asymmetry, s1, n)
    | none => .error "KeyError: efg_diagonal_evals_hsort"

/-- `EFGSpan.extract` (efg.py): guards and reads the plain
`efg_diagonal_evals` entry, not the Haeberlen-sorted one. -/
def EFGSpan_extract (eigh : Mat3 → EigenSys) (s : Atoms) (force_recalc : Bool) :
    Except String (List ℚ × Atoms × ℕ) :=
  if s.efg.isNone then .error noEfgMsg else
  match diag_if_needed eigh s s.info_evals.isSome force_recalc with
  | .error msg => .error msg
  | .ok (s1, n) =>
    match s1.info_evals with
    | some efg_evals => .ok (efg_evals.map _span, s1, n)
    | none => .error "KeyError: efg_diagonal_evals"

/-- `EFGSkew.extract` (efg.py): also reads the plain eigenvalues. -/
def EFGSkew_extract (eigh : Mat3 → EigenSys) (s : Atoms) (force_recalc : Bool) :
    Except String (List ℚ × Atoms × ℕ) :=
  if s.efg.isNone then .error noEfgMsg else
  match diag_if_needed eigh s s.info_evals.isSome force_recalc with
  | .error msg => .error msg
  | .ok (s1, n) =>
    match s1.info_evals with
    | some efg_evals => .ok (efg_evals.map _skew, s1, n)
    | none => .error "KeyError: efg_diagonal_evals"

/-- The scipy physical constant named atomic unit of electric field
gradient, 9.7173624292e21 (CODATA 2018). -/
def efgAu : ℚ := 97173624292 * 10 ^ 11

/-- `scipy.constants.e` = 1.602176634e-19. -/
def elemCharge : ℚ := 1602176634 / 10 ^ 28

/-- `scipy.constants.h` = 6.62607015e-34. -/
def planckH : ℚ := 662607015 / 10 ^ 42

/-- The conversion constant `k` of `EFGQuadrupolarConstant.extract`:
`efgAu * e * 1e-28 / h`. -/
def kQconst : ℚ := efgAu * elemCharge * (1 / 10 ^ 28) / planckH

/-- Per-atom isotope choice in `EFGQuadrupolarConstant.extract`.  The source
first runs `if isotope_list is not None and isotope_list[i] is not None:
iso = isotope_list[i]`, and then a separate `if e in isotopes / elif
use_q_isotopes and the dataset Q_iso is not None / else` chain.  Every
branch of that second chain reassigns `iso`, so the value taken from the
per-atom list is dead: `ent` below never influences the returned isotope. -/
def resolve_iso (isotopes : List (String × String)) (e : String)
    (use_q_isotopes : Bool) (ed : ElementData) (ent : Option String) : String :=
  let _iso_from_list := ent   -- `iso = isotope_list[i]`, overwritten below
  match List.lookup e isotopes with
  | some v => v
  | none =>
    match ed.Q_iso with
    | some q => if use_q_isotopes then q else ed.iso
    | none => ed.iso

/-- The quadrupole moment the loop body would append for one atom of element
`e` with per-atom list entry `ent`: element record lookup followed by the
moment lookup at the resolved isotope.  `none` marks the error paths. -/
def resolvedMoment (data : NMRData) (isotopes : List (String × String))
    (use_q_isotopes : Bool) (e : String) (ent : Option String) : Option ℚ :=
  match List.lookup e data with
  | none => none
  | some ed => List.lookup (resolve_iso isotopes e use_q_isotopes ed ent) ed.Q

/-- The `for i, e in enumerate(elems)` loop of
`EFGQuadrupolarConstant.extract`, over (element, per-atom entry) pairs:
raises on an element missing from the dataset, resolves the isotope, raises
when its moment record is missing (`KeyError` on `_nmr_data[e][str(iso)]`),
otherwise appends the moment `Q`. -/
def qloop (data : NMRData) (isotopes : List (String × String))
    (use_q_isotopes : Bool) :
    List (String × Option String) → Except String (List ℚ)
  | [] => .ok []
  | (e, ent) :: rest =>
    match List.lookup e data with
    | none => .error (unknownElementMsg e)
    | some ed =>
      let iso := resolve_iso isotopes e use_q_isotopes ed ent
      match List.lookup iso ed.Q with
      | none => .error (unknownIsotopeMsg iso e)
      | some q =>
        match qloop data isotopes use_q_isotopes rest with
        | .error msg => .error msg
        | .ok qs => .ok (q :: qs)

/-- The `isotope_list` validity check: a list whose length differs from the
number of atoms is dropped (`isotope_list = None`) with a printed warning;
the boolean records whether the warning was printed. -/
def effList (elems : List String) (isotope_list : Option (List (Option String))) :
    Option (List (Option String)) × Bool :=
  match isotope_list with
  | some l => if l.length ≠ elems.length then (none, true) else (some l, false)
  | none => (none, false)

/-- Pair each element symbol with its per-atom list entry (`none` throughout
when no valid list was supplied). -/
def mkEntries (elems : List String) (ilist : Option (List (Option String))) :
    List (String × Option String) :=
  match ilist with
  | some l => elems.zip l
  | none => elems.map (fun e => (e, none))

/-- `EFGQuadrupolarConstant.extract` (efg.py).  `nmr` is the module-level
`_nmr_data` (`none` when its load failed).  Returns the `Except` outcome
(values, final structure, diagonalization passes) together with the flag
recording whether the invalid-`isotope_list` warning was printed. -/
def EFGQuadrupolarConstant_extract (eigh : Mat3 → EigenSys) (nmr : Option NMRData)
    (s : Atoms) (force_recalc use_q_isotopes : Bool)
    (isotopes : List (String × String))
    (isotope_list : Option (List (Option String))) :
    Except String (List ℚ × Atoms × ℕ) × Bool :=
  if s.efg.isNone then (.error noEfgMsg, false) else
  match diag_if_needed eigh s s.info_evals.isSome force_recalc with
  | .error msg => (.error msg, false)
  | .ok (s1, n1) =>
    match nmr with
    | none => (.error noNmrDataMsg, false)
    | some data =>
      let elems := s1.symbols
      let ilist := (effList elems isotope_list).1
      let warned := (effList elems isotope_list).2
      match qloop data isotopes use_q_isotopes (mkEntries elems ilist) with
      | .error msg => (.error msg, warned)
      | .ok q_list =>
        -- `return k*q_list*EFGVzz.get(s)`; modelled from the spec:
        -- `EFGVzz.get` runs `extract` with default `force_recalc = False`.
        match EFGVzz_extract eigh s1 false with
        | .error msg => (.error msg, warned)
        | .ok (vzz, s2, n2) =>
          (.ok (List.zipWith (fun q v => kQconst * q * v) q_list vzz, s2, n1 + n2),
           warned)

/-- Ascending sort of three values, mirroring the eigenvalue order
`np.linalg.eigh` guarantees; used to instantiate `eigh` on diagonal
matrices in concrete examples. -/
def sort3 (x y z : ℚ) : Vec3 :=
  if x ≤ y then
    if y ≤ z then ⟨x, y, z⟩ else if x ≤ z then ⟨x, z, y⟩ else ⟨z, x, y⟩
  else
    if x ≤ z then ⟨y, x, z⟩ else if y ≤ z then ⟨y, z, x⟩ else ⟨z, y, x⟩

/-- A concrete stand-in for `np.linalg.eigh`, valid on diagonal matrices:
ascending diagonal entries, identity eigenvectors. -/
def eigh_diag (m : Mat3) : EigenSys :=
  ⟨sort3 m.r0.a m.r1.b m.r2.c, ⟨⟨1, 0, 0⟩, ⟨0, 1, 0⟩, ⟨0, 0, 1⟩⟩⟩

/-- The structure after `EFGDiagonal.get` has written its three entries. -/
def diag_write (eigh : Mat3 → EigenSys) (s : Atoms) (ts : List Mat3) : Atoms :=
  { s with
    info_evals := some ((ts.map (fun efg => eigh (symm3 efg))).map EigenSys.evals),
    info_evals_hsort :=
      some (_haeb_sort ((ts.map (fun efg => eigh (symm3 efg))).map EigenSys.evals)),
    info_evecs := some ((ts.map (fun efg => eigh (symm3 efg))).map EigenSys.evecs) }

/-- The shared shape of the four extracts guarded by the Haeberlen-sorted
entry (`EFGVzz`, `EFGAnisotropy`, `EFGReducedAnisotropy`, `EFGAsymmetry`),
abstracted over the final row calculator. -/
def hsortOp (eigh : Mat3 → EigenSys) (g : Vec3 → ℚ) (s : Atoms)
    (force_recalc : Bool) : Except String (List ℚ × Atoms × ℕ) :=
  if s.efg.isNone then .error noEfgMsg else
  match diag_if_needed eigh s s.info_evals_hsort.isSome force_recalc with
  | .error msg => .error msg
  | .ok (s1, n) =>
    match s1.info_evals_hsort with
    | some efg_evals => .ok (efg_evals.map g, s1, n)
    | none => .error "KeyError: efg_diagonal_evals_hsort"

/-- The shared shape of the two extracts guarded by the plain-eigenvalue
entry (`EFGSpan`, `EFGSkew`). -/
def rawOp (eigh : Mat3 → EigenSys) (g : Vec3 → ℚ) (s : Atoms)
    (force_recalc : Bool) : Except String (List ℚ × Atoms × ℕ) :=
  if s.efg.isNone then .error noEfgMsg else
  match diag_if_needed eigh s s.info_evals.isSome force_recalc with
  | .error msg => .error msg
  | .ok (s1, n) =>
    match s1.info_evals with
    | some efg_evals => .ok (efg_evals.map g, s1, n)
    | none => .error "KeyError: efg_diagonal_evals"

/-- The §4.3 protocol for one derived-quantity operation `f` (taking the
structure and the force-recompute flag, returning values, new structure,
diagonalization-pass count) whose guard is `cached`:
at most one diagonalization pass per call; a present cache entry with the
flag unset is reused, with no pass and no store write; otherwise one pass
runs and leaves all three named entries present. -/
def MemoContract (f : Atoms → Bool → Except String (List ℚ × Atoms × ℕ))
    (cached : Atoms → Bool) (s : Atoms) (force : Bool) : Prop :=
  (∀ r s' n, f s force = .ok (r, s', n) → n ≤ 1) ∧
  (cached s = true → force = false →
    ∀ r s' n, f s force = .ok (r, s', n) → n = 0 ∧ s' = s) ∧
  ((cached s = false ∨ force = true) →
    ∀ r s' n, f s force = .ok (r, s', n) →
      n = 1 ∧ s'.info_evals.isSome = true ∧ s'.info_evals_hsort.isSome = true ∧
        s'.info_evecs.isSome = true)

/-- The §8 end-to-end tensor `[[1,0,0],[0,-2,0],[0,0,1]]`. -/
def tensorD : Mat3 := ⟨⟨1, 0, 0⟩, ⟨0, -2, 0⟩, ⟨0, 0, 1⟩⟩

/-- A one-atom hydrogen structure carrying `tensorD`, with an empty store. -/
def atomsH : Atoms := ⟨some [tensorD], ["H"], none, none, none⟩

/-- A small reference dataset: hydrogen with default isotope `"1"`,
most-quadrupolar isotope `"2"`, and moments 0, 7, 11 for isotopes 1·2·3. -/
def dataH : NMRData := [("H", ⟨"1", some "2", [("1", 0), ("2", 7), ("3", 11)]⟩)]

/-- The continuation of `EFGQuadrupolarConstant.extract` after the per-atom
loop: combine the moments with `k` and `EFGVzz.get`. -/
def qcont (eigh : Mat3 → EigenSys) (s1 : Atoms) (n1 : ℕ) :
    Except String (List ℚ) → Except String (List ℚ × Atoms × ℕ)
  | .error msg => .error msg
  | .ok q_list =>
    match EFGVzz_extract eigh s1 false with
    | .error msg => .error msg
    | .ok (vzz, s2, n2) =>
        .ok (List.zipWith (fun q v => kQconst * q * v) q_list vzz, s2, n1 + n2)

/-! ### Theorems -/

-- Sanity checks on concrete inputs (spec §8 end-to-end scenario:
-- eigenvalues {-2, 1, 1} put the deviation of -2 last, anisotropy = -3).
example : haeb_sort_row ⟨-2, 1, 1⟩ = ⟨1, 1, -2⟩ := by
  norm_num [haeb_sort_row, isoAvg]
example : _anisotropy ⟨1, 1, -2⟩ false = -3 := by
  norm_num [_anisotropy]
example : _asymmetry ⟨1, 1, -2⟩ = 0 := by
  norm_num [_asymmetry, _anisotropy]
example : _span ⟨3, -1, 2⟩ = 4 := by
  norm_num [_span]
example : _skew ⟨0, 1, 5⟩ = -3 / 5 := by
  norm_num [_skew, median3, isoAvg, _span]

theorem haeb_sort_row_dev (t : Vec3) : devOrdered t (haeb_sort_row t) := by
  simp only [haeb_sort_row, devOrdered]
  split_ifs with h1 h2 h3 h4 h5 <;> dsimp only <;> constructor <;> linarith

theorem haeb_sort_row_perm (t : Vec3) : sameValues t (haeb_sort_row t) := by
  simp only [haeb_sort_row, sameValues]
  split_ifs with h1 h2 h3 h4 h5 <;> dsimp only
  · exact List.Perm.swap _ _ _
  · exact (List.Perm.swap _ _ _).trans (List.Perm.cons _ (List.Perm.swap _ _ _))
  · exact List.Perm.cons _ (List.Perm.swap _ _ _)
  · exact List.Perm.refl _
  · exact (List.Perm.swap _ _ _).trans
      ((List.Perm.cons _ (List.Perm.swap _ _ _)).trans (List.Perm.swap _ _ _))
  · exact (List.Perm.cons _ (List.Perm.swap _ _ _)).trans (List.Perm.swap _ _ _)

/-- C2: for every batch of eigenvalue triplets given in ascending order,
the Haeberlen sort returns, row by row, the same three values reordered so
that with `iso` the mean of the row, `|result[1] - iso| ≤ |result[0] - iso|
≤ |result[2] - iso|` (position 0 = second-smallest deviation, position 1 =
smallest, position 2 = largest). -/
theorem haeb_sort_batch_dev_order (evals : List Vec3)
    (hasc : ∀ t ∈ evals, t.a ≤ t.b ∧ t.b ≤ t.c)
    (i : ℕ) (hi : i < evals.length) (hi' : i < (_haeb_sort evals).length) :
    devOrdered (evals.get ⟨i, hi⟩) ((_haeb_sort evals).get ⟨i, hi'⟩) ∧
    sameValues (evals.get ⟨i, hi⟩) ((_haeb_sort evals).get ⟨i, hi'⟩) := by
  have hrow : (_haeb_sort evals).get ⟨i, hi'⟩ = haeb_sort_row (evals.get ⟨i, hi⟩) := by
    simp [_haeb_sort]
  rw [hrow]
  exact ⟨haeb_sort_row_dev _, haeb_sort_row_perm _⟩

/-- Witness for C2: the single-row batch `[(-2, 1, 1)]` (ascending). -/
theorem haeb_sort_batch_dev_order_witness :
    devOrdered ⟨-2, 1, 1⟩ (haeb_sort_row ⟨-2, 1, 1⟩) ∧
    sameValues ⟨-2, 1, 1⟩ (haeb_sort_row ⟨-2, 1, 1⟩) := by
  have h := haeb_sort_batch_dev_order [⟨-2, 1, 1⟩]
    (by intro t ht; simp at ht; subst ht; norm_num) 0 (by simp) (by simp [_haeb_sort])
  simpa [_haeb_sort] using h

theorem anisotropy_row_reduced (t : Vec3) :
    _anisotropy t true = _anisotropy t false * (2 / 3) := by
  simp [_anisotropy]

theorem anisotropy_row_unreduced (t : Vec3) :
    _anisotropy t false = t.c - (t.a + t.b) / 2 := by
  simp [_anisotropy]

/-- C5: over a whole batch of Haeberlen-sorted triplets, the reduced
anisotropy equals the unreduced anisotropy times 2/3, where the unreduced
anisotropy is position 2 minus the mean of positions 0 and 1. -/
theorem anisotropy_reduced_two_thirds (haeb : List Vec3) :
    haeb.map (fun t => _anisotropy t true)
      = haeb.map (fun t => _anisotropy t false * (2 / 3)) ∧
    haeb.map (fun t => _anisotropy t false)
      = haeb.map (fun t => t.c - (t.a + t.b) / 2) := by
  constructor
  · simp only [anisotropy_row_reduced]
  · simp only [anisotropy_row_unreduced]

theorem isoAvg_reflect (t : Vec3) : isoAvg (reflect3 (isoAvg t) t) = isoAvg t := by
  simp only [isoAvg, reflect3]
  ring

theorem span_reflect (m : ℚ) (t : Vec3) : _span (reflect3 m t) = _span t := by
  simp only [_span, reflect3]
  rw [show (2*m - t.b) ⊔ (2*m - t.c) = 2*m - (t.b ⊓ t.c) from max_sub_sub_left _ _ _,
      show (2*m - t.a) ⊔ (2*m - (t.b ⊓ t.c)) = 2*m - (t.a ⊓ (t.b ⊓ t.c)) from
        max_sub_sub_left _ _ _,
      show (2*m - t.b) ⊓ (2*m - t.c) = 2*m - (t.b ⊔ t.c) from min_sub_sub_left _ _ _,
      show (2*m - t.a) ⊓ (2*m - (t.b ⊔ t.c)) = 2*m - (t.a ⊔ (t.b ⊔ t.c)) from
        min_sub_sub_left _ _ _]
  ring

theorem median3_reflect (m : ℚ) (t : Vec3) :
    median3 (reflect3 m t) = 2 * m - median3 t := by
  simp only [median3, reflect3]
  split_ifs <;> linarith

theorem skew_reflect (t : Vec3) :
    _skew (reflect3 (isoAvg t) t) = - _skew t := by
  simp only [_skew]
  rw [median3_reflect, span_reflect, isoAvg_reflect, ← neg_div]
  congr 1
  ring

theorem diag_get_eq (eigh : Mat3 → EigenSys) (s : Atoms) (ts : List Mat3)
    (h : s.efg = some ts) :
    EFGDiagonal_get eigh s
      = .ok (ts.map (fun efg => eigh (symm3 efg)), diag_write eigh s ts) := by
  simp [EFGDiagonal_get, EFGDiagonal_extract, diag_write, h]

theorem diag_write_symbols (eigh : Mat3 → EigenSys) (s : Atoms) (ts : List Mat3) :
    (diag_write eigh s ts).symbols = s.symbols := rfl

theorem diag_write_efg (eigh : Mat3 → EigenSys) (s : Atoms) (ts : List Mat3) :
    (diag_write eigh s ts).efg = s.efg := rfl

theorem diag_write_evals (eigh : Mat3 → EigenSys) (s : Atoms) (ts : List Mat3) :
    (diag_write eigh s ts).info_evals
      = some ((ts.map (fun efg => eigh (symm3 efg))).map EigenSys.evals) := rfl

theorem diag_write_hsort (eigh : Mat3 → EigenSys) (s : Atoms) (ts : List Mat3) :
    (diag_write eigh s ts).info_evals_hsort
      = some (_haeb_sort ((ts.map (fun efg => eigh (symm3 efg))).map EigenSys.evals)) := rfl

theorem diag_write_evecs (eigh : Mat3 → EigenSys) (s : Atoms) (ts : List Mat3) :
    (diag_write eigh s ts).info_evecs
      = some ((ts.map (fun efg => eigh (symm3 efg))).map EigenSys.evecs) := rfl

theorem diag_if_needed_cached (eigh : Mat3 → EigenSys) (s : Atoms) :
    diag_if_needed eigh s true false = .ok (s, 0) := rfl

theorem diag_if_needed_run (eigh : Mat3 → EigenSys) (s : Atoms) (ts : List Mat3)
    (h : s.efg = some ts) (kp force : Bool) (hrun : kp = false ∨ force = true) :
    diag_if_needed eigh s kp force = .ok (diag_write eigh s ts, 1) := by
  have hcond : (!kp || force) = true := by
    rcases hrun with h' | h' <;> simp [h']
  simp [diag_if_needed, hcond, diag_get_eq eigh s ts h]

theorem vzz_as_hsortOp (eigh : Mat3 → EigenSys) (s : Atoms) (force : Bool) :
    EFGVzz_extract eigh s force = hsortOp eigh Vec3.c s force := rfl

theorem anisotropy_as_hsortOp (eigh : Mat3 → EigenSys) (s : Atoms) (force : Bool) :
    EFGAnisotropy_extract eigh s force
      = hsortOp eigh (fun t => _anisotropy t false) s force := rfl

theorem red_anisotropy_as_hsortOp (eigh : Mat3 → EigenSys) (s : Atoms) (force : Bool) :
    EFGReducedAnisotropy_extract eigh s force
      = hsortOp eigh (fun t => _anisotropy t true) s force := rfl

theorem asymmetry_as_hsortOp (eigh : Mat3 → EigenSys) (s : Atoms) (force : Bool) :
    EFGAsymmetry_extract eigh s force = hsortOp eigh _asymmetry s force := rfl

theorem span_as_rawOp (eigh : Mat3 → EigenSys) (s : Atoms) (force : Bool) :
    EFGSpan_extract eigh s force = rawOp eigh _span s force := rfl

theorem skew_as_rawOp (eigh : Mat3 → EigenSys) (s : Atoms) (force : Bool) :
    EFGSkew_extract eigh s force = rawOp eigh _skew s force := rfl

theorem hsortOp_cached (eigh : Mat3 → EigenSys) (g : Vec3 → ℚ) (s : Atoms)
    (ts : List Mat3) (hefg : s.efg = some ts) (ev : List Vec3)
    (hc : s.info_evals_hsort = some ev) :
    hsortOp eigh g s false = .ok (ev.map g, s, 0) := by
  simp [hsortOp, diag_if_needed, hefg, hc]

theorem hsortOp_run (eigh : Mat3 → EigenSys) (g : Vec3 → ℚ) (s : Atoms)
    (ts : List Mat3) (hefg : s.efg = some ts) (force : Bool)
    (hrun : s.info_evals_hsort.isSome = false ∨ force = true) :
    hsortOp eigh g s force
      = .ok ((_haeb_sort ((ts.map (fun efg => eigh (symm3 efg))).map EigenSys.evals)).map g,
             diag_write eigh s ts, 1) := by
  rw [hsortOp]
  simp only [hefg, Option.isNone_some, Bool.false_eq_true, if_false]
  rw [diag_if_needed_run eigh s ts hefg _ _ hrun]
  simp [diag_write]

theorem rawOp_cached (eigh : Mat3 → EigenSys) (g : Vec3 → ℚ) (s : Atoms)
    (ts : List Mat3) (hefg : s.efg = some ts) (ev : List Vec3)
    (hc : s.info_evals = some ev) :
    rawOp eigh g s false = .ok (ev.map g, s, 0) := by
  simp [rawOp, diag_if_needed, hefg, hc]

theorem rawOp_run (eigh : Mat3 → EigenSys) (g : Vec3 → ℚ) (s : Atoms)
    (ts : List Mat3) (hefg : s.efg = some ts) (force : Bool)
    (hrun : s.info_evals.isSome = false ∨ force = true) :
    rawOp eigh g s force
      = .ok (((ts.map (fun efg => eigh (symm3 efg))).map EigenSys.evals).map g,
             diag_write eigh s ts, 1) := by
  rw [rawOp]
  simp only [hefg, Option.isNone_some, Bool.false_eq_true, if_false]
  rw [diag_if_needed_run eigh s ts hefg _ _ hrun]
  simp [diag_write]

/-- C6: span is max minus min of the raw triple and is invariant under every
permutation of the triple (in particular under the Haeberlen resort, so
computing it from raw rather than sorted eigenvalues is immaterial), and skew
changes sign when the triple is reflected about its mean. -/
theorem span_skew_raw_evals (t : Vec3) :
    (_span t = max t.a (max t.b t.c) - min t.a (min t.b t.c)) ∧
    (_span ⟨t.a, t.c, t.b⟩ = _span t ∧ _span ⟨t.b, t.a, t.c⟩ = _span t ∧
     _span ⟨t.b, t.c, t.a⟩ = _span t ∧ _span ⟨t.c, t.a, t.b⟩ = _span t ∧
     _span ⟨t.c, t.b, t.a⟩ = _span t) ∧
    _span (haeb_sort_row t) = _span t ∧
    _skew (reflect3 (isoAvg t) t) = - _skew t ∧
    (∀ (eigh : Mat3 → EigenSys) (ts : List Mat3) (symbols : List String),
      EFGSpan_extract eigh ⟨some ts, symbols, none, none, none⟩ false
        = .ok (((ts.map (fun efg => eigh (symm3 efg))).map EigenSys.evals).map _span,
            diag_write eigh ⟨some ts, symbols, none, none, none⟩ ts, 1) ∧
      EFGSkew_extract eigh ⟨some ts, symbols, none, none, none⟩ false
        = .ok (((ts.map (fun efg => eigh (symm3 efg))).map EigenSys.evals).map _skew,
            diag_write eigh ⟨some ts, symbols, none, none, none⟩ ts, 1)) := by
  refine ⟨rfl, ⟨?_, ?_, ?_, ?_, ?_⟩, ?_, skew_reflect t, ?_⟩
  case _ => simp [_span, max_comm, max_left_comm, min_comm, min_left_comm]
  case _ => simp [_span, max_comm, max_left_comm, min_comm, min_left_comm]
  case _ => simp [_span, max_comm, max_left_comm, min_comm, min_left_comm]
  case _ => simp [_span, max_comm, max_left_comm, min_comm, min_left_comm]
  case _ => simp [_span, max_comm, max_left_comm, min_comm, min_left_comm]
  case _ =>
    simp only [haeb_sort_row]
    split_ifs <;>
      simp [_span, max_comm, max_left_comm, min_comm, min_left_comm]
  case _ =>
    intro eigh ts symbols
    constructor
    · rw [span_as_rawOp]
      exact rawOp_run eigh _span ⟨some ts, symbols, none, none, none⟩ ts rfl false
        (Or.inl rfl)
    · rw [skew_as_rawOp]
      exact rawOp_run eigh _skew ⟨some ts, symbols, none, none, none⟩ ts rfl false
        (Or.inl rfl)

/-- C9: if the structure has no `efg` array, every operation of the
pipeline — diagonalization, Vzz, anisotropy, reduced anisotropy, asymmetry,
span, skew, quadrupolar constant — fails immediately with the
missing-required-data error of `_has_efg_check`; no value is returned, no
cache entry is read or written (the structure is not part of the outcome),
and no warning is printed. -/
theorem missing_efg_all_error (eigh : Mat3 → EigenSys) (nmr : Option NMRData)
    (s : Atoms) (save_info force use_q : Bool)
    (isotopes : List (String × String))
    (il : Option (List (Option String)))
    (h : s.efg = none) :
    EFGDiagonal_extract eigh s save_info = .error noEfgMsg ∧
    EFGVzz_extract eigh s force = .error noEfgMsg ∧
    EFGAnisotropy_extract eigh s force = .error noEfgMsg ∧
    EFGReducedAnisotropy_extract eigh s force = .error noEfgMsg ∧
    EFGAsymmetry_extract eigh s force = .error noEfgMsg ∧
    EFGSpan_extract eigh s force = .error noEfgMsg ∧
    EFGSkew_extract eigh s force = .error noEfgMsg ∧
    EFGQuadrupolarConstant_extract eigh nmr s force use_q isotopes il
      = (.error noEfgMsg, false) := by
  refine ⟨?_, ?_, ?_, ?_, ?_, ?_, ?_, ?_⟩ <;>
    simp [EFGDiagonal_extract, EFGVzz_extract, EFGAnisotropy_extract,
      EFGReducedAnisotropy_extract, EFGAsymmetry_extract, EFGSpan_extract,
      EFGSkew_extract, EFGQuadrupolarConstant_extract, h]

/-- Witness for C9: a concrete structure with `efg` absent. -/
theorem missing_efg_all_error_witness :
    EFGVzz_extract eigh_diag ⟨none, ["H"], none, none, none⟩ false
        = .error noEfgMsg ∧
    EFGQuadrupolarConstant_extract eigh_diag none
        ⟨none, ["H"], none, none, none⟩ false false [] none
      = (.error noEfgMsg, false) :=
  ⟨(missing_efg_all_error eigh_diag none ⟨none, ["H"], none, none, none⟩
      true false false [] none rfl).2.1,
   (missing_efg_all_error eigh_diag none ⟨none, ["H"], none, none, none⟩
      true false false [] none rfl).2.2.2.2.2.2.2⟩

theorem memo_hsortOp (eigh : Mat3 → EigenSys) (g : Vec3 → ℚ) (s : Atoms)
    (ts : List Mat3) (hefg : s.efg = some ts) (force : Bool) :
    MemoContract (hsortOp eigh g) (fun s => s.info_evals_hsort.isSome) s force := by
  refine ⟨?_, ?_, ?_⟩
  · intro r s' n h
    rcases hc : s.info_evals_hsort with _ | ev
    · rw [hsortOp_run eigh g s ts hefg force (Or.inl (by simp [hc]))] at h
      simp only [Except.ok.injEq, Prod.mk.injEq] at h
      omega
    · by_cases hf : force
      · rw [hsortOp_run eigh g s ts hefg force (Or.inr hf)] at h
        simp only [Except.ok.injEq, Prod.mk.injEq] at h
        omega
      · have hf' : force = false := by simpa using hf
        subst hf'
        rw [hsortOp_cached eigh g s ts hefg ev hc] at h
        simp only [Except.ok.injEq, Prod.mk.injEq] at h
        omega
  · intro hcache hforce r s' n h
    subst hforce
    obtain ⟨ev, hc⟩ := Option.isSome_iff_exists.mp hcache
    rw [hsortOp_cached eigh g s ts hefg ev hc] at h
    simp only [Except.ok.injEq, Prod.mk.injEq] at h
    exact ⟨h.2.2.symm, h.2.1.symm⟩
  · intro hrun r s' n h
    have hrun' : s.info_evals_hsort.isSome = false ∨ force = true := by
      simpa using hrun
    rw [hsortOp_run eigh g s ts hefg force hrun'] at h
    simp only [Except.ok.injEq, Prod.mk.injEq] at h
    refine ⟨h.2.2.symm, ?_, ?_, ?_⟩ <;> rw [← h.2.1] <;> simp [diag_write]

theorem memo_rawOp (eigh : Mat3 → EigenSys) (g : Vec3 → ℚ) (s : Atoms)
    (ts : List Mat3) (hefg : s.efg = some ts) (force : Bool) :
    MemoContract (rawOp eigh g) (fun s => s.info_evals.isSome) s force := by
  refine ⟨?_, ?_, ?_⟩
  · intro r s' n h
    rcases hc : s.info_evals with _ | ev
    · rw [rawOp_run eigh g s ts hefg force (Or.inl (by simp [hc]))] at h
      simp only [Except.ok.injEq, Prod.mk.injEq] at h
      omega
    · by_cases hf : force
      · rw [rawOp_run eigh g s ts hefg force (Or.inr hf)] at h
        simp only [Except.ok.injEq, Prod.mk.injEq] at h
        omega
      · have hf' : force = false := by simpa using hf
        subst hf'
        rw [rawOp_cached eigh g s ts hefg ev hc] at h
        simp only [Except.ok.injEq, Prod.mk.injEq] at h
        omega
  · intro hcache hforce r s' n h
    subst hforce
    obtain ⟨ev, hc⟩ := Option.isSome_iff_exists.mp hcache
    rw [rawOp_cached eigh g s ts hefg ev hc] at h
    simp only [Except.ok.injEq, Prod.mk.injEq] at h
    exact ⟨h.2.2.symm, h.2.1.symm⟩
  · intro hrun r s' n h
    have hrun' : s.info_evals.isSome = false ∨ force = true := by
      simpa using hrun
    rw [rawOp_run eigh g s ts hefg force hrun'] at h
    simp only [Except.ok.injEq, Prod.mk.injEq] at h
    refine ⟨h.2.2.symm, ?_, ?_, ?_⟩ <;> rw [← h.2.1] <;> simp [diag_write]

theorem diag_if_needed_ok (eigh : Mat3 → EigenSys) (s : Atoms) (ts : List Mat3)
    (hefg : s.efg = some ts) (kp force : Bool) :
    diag_if_needed eigh s kp force = .ok (s, 0) ∨
    diag_if_needed eigh s kp force = .ok (diag_write eigh s ts, 1) := by
  by_cases h : (!kp || force) = true
  · right
    simp [diag_if_needed, h, diag_get_eq eigh s ts hefg]
  · left
    simp [diag_if_needed, h]

theorem qconst_no_data (eigh : Mat3 → EigenSys) (s : Atoms) (ts : List Mat3)
    (hefg : s.efg = some ts) (force use_q : Bool)
    (isotopes : List (String × String)) (il : Option (List (Option String))) :
    EFGQuadrupolarConstant_extract eigh none s force use_q isotopes il
      = (.error noNmrDataMsg, false) := by
  rcases diag_if_needed_ok eigh s ts hefg s.info_evals.isSome force with h | h <;>
    simp [EFGQuadrupolarConstant_extract, hefg, h]

theorem qconst_run_ok (eigh : Mat3 → EigenSys) (data : NMRData) (s : Atoms)
    (ts : List Mat3) (hefg : s.efg = some ts) (force use_q : Bool)
    (isotopes : List (String × String)) (il : Option (List (Option String)))
    (q_list : List ℚ)
    (hrun : s.info_evals.isSome = false ∨ force = true)
    (hq : qloop data isotopes use_q (mkEntries s.symbols (effList s.symbols il).1)
      = .ok q_list) :
    EFGQuadrupolarConstant_extract eigh (some data) s force use_q isotopes il
      = (.ok (List.zipWith (fun q v => kQconst * q * v) q_list
            ((_haeb_sort ((ts.map (fun efg => eigh (symm3 efg))).map
                EigenSys.evals)).map Vec3.c),
          diag_write eigh s ts, 1),
         (effList s.symbols il).2) := by
  have h1 := diag_if_needed_run eigh s ts hefg s.info_evals.isSome force hrun
  have hvzz : EFGVzz_extract eigh (diag_write eigh s ts) false
      = .ok ((_haeb_sort ((ts.map (fun efg => eigh (symm3 efg))).map
            EigenSys.evals)).map Vec3.c, diag_write eigh s ts, 0) := by
    rw [vzz_as_hsortOp]
    exact hsortOp_cached eigh Vec3.c (diag_write eigh s ts) ts
      (by simp [diag_write, hefg]) _ rfl
  simp [EFGQuadrupolarConstant_extract, hefg, h1, diag_write_symbols, hq, hvzz]

theorem qconst_run_err (eigh : Mat3 → EigenSys) (data : NMRData) (s : Atoms)
    (ts : List Mat3) (hefg : s.efg = some ts) (force use_q : Bool)
    (isotopes : List (String × String)) (il : Option (List (Option String)))
    (msg : String)
    (hrun : s.info_evals.isSome = false ∨ force = true)
    (hq : qloop data isotopes use_q (mkEntries s.symbols (effList s.symbols il).1)
      = .error msg) :
    EFGQuadrupolarConstant_extract eigh (some data) s force use_q isotopes il
      = (.error msg, (effList s.symbols il).2) := by
  have h1 := diag_if_needed_run eigh s ts hefg s.info_evals.isSome force hrun
  simp [EFGQuadrupolarConstant_extract, hefg, h1, diag_write_symbols, hq]

theorem qconst_cached_ok (eigh : Mat3 → EigenSys) (data : NMRData) (s : Atoms)
    (ts : List Mat3) (hefg : s.efg = some ts) (use_q : Bool)
    (isotopes : List (String × String)) (il : Option (List (Option String)))
    (ev hs : List Vec3) (q_list : List ℚ)
    (hce : s.info_evals = some ev) (hch : s.info_evals_hsort = some hs)
    (hq : qloop data isotopes use_q (mkEntries s.symbols (effList s.symbols il).1)
      = .ok q_list) :
    EFGQuadrupolarConstant_extract eigh (some data) s false use_q isotopes il
      = (.ok (List.zipWith (fun q v => kQconst * q * v) q_list (hs.map Vec3.c), s, 0),
         (effList s.symbols il).2) := by
  have h1 : diag_if_needed eigh s s.info_evals.isSome false = .ok (s, 0) := by
    rw [hce]
    exact diag_if_needed_cached eigh s
  have hvzz : EFGVzz_extract eigh s false = .ok (hs.map Vec3.c, s, 0) := by
    rw [vzz_as_hsortOp]
    exact hsortOp_cached eigh Vec3.c s ts hefg hs hch
  simp [EFGQuadrupolarConstant_extract, hefg, h1, hq, hvzz]

theorem qconst_cached_err (eigh : Mat3 → EigenSys) (data : NMRData) (s : Atoms)
    (ts : List Mat3) (hefg : s.efg = some ts) (use_q : Bool)
    (isotopes : List (String × String)) (il : Option (List (Option String)))
    (ev : List Vec3) (msg : String)
    (hce : s.info_evals = some ev)
    (hq : qloop data isotopes use_q (mkEntries s.symbols (effList s.symbols il).1)
      = .error msg) :
    EFGQuadrupolarConstant_extract eigh (some data) s false use_q isotopes il
      = (.error msg, (effList s.symbols il).2) := by
  have h1 : diag_if_needed eigh s s.info_evals.isSome false = .ok (s, 0) := by
    rw [hce]
    exact diag_if_needed_cached eigh s
  simp [EFGQuadrupolarConstant_extract, hefg, h1, hq]

theorem qconst_mixed_ok (eigh : Mat3 → EigenSys) (data : NMRData) (s : Atoms)
    (ts : List Mat3) (hefg : s.efg = some ts) (use_q : Bool)
    (isotopes : List (String × String)) (il : Option (List (Option String)))
    (ev : List Vec3) (q_list : List ℚ)
    (hce : s.info_evals = some ev) (hch : s.info_evals_hsort = none)
    (hq : qloop data isotopes use_q (mkEntries s.symbols (effList s.symbols il).1)
      = .ok q_list) :
    EFGQuadrupolarConstant_extract eigh (some data) s false use_q isotopes il
      = (.ok (List.zipWith (fun q v => kQconst * q * v) q_list
            ((_haeb_sort ((ts.map (fun efg => eigh (symm3 efg))).map
                EigenSys.evals)).map Vec3.c),
          diag_write eigh s ts, 1),
         (effList s.symbols il).2) := by
  have h1 : diag_if_needed eigh s s.info_evals.isSome false = .ok (s, 0) := by
    rw [hce]
    exact diag_if_needed_cached eigh s
  have hvzz : EFGVzz_extract eigh s false
      = .ok ((_haeb_sort ((ts.map (fun efg => eigh (symm3 efg))).map
            EigenSys.evals)).map Vec3.c, diag_write eigh s ts, 1) := by
    rw [vzz_as_hsortOp]
    exact hsortOp_run eigh Vec3.c s ts hefg false (Or.inl (by simp [hch]))
  simp [EFGQuadrupolarConstant_extract, hefg, h1, hq, hvzz]

theorem qconst_ok_cases (eigh : Mat3 → EigenSys) (data : NMRData) (s : Atoms)
    (ts : List Mat3) (hefg : s.efg = some ts) (force use_q : Bool)
    (isotopes : List (String × String)) (il : Option (List (Option String)))
    (r : List ℚ) (s' : Atoms) (n : ℕ)
    (h : (EFGQuadrupolarConstant_extract eigh (some data) s force use_q isotopes il).1
      = .ok (r, s', n)) :
    (force = false ∧ s.info_evals.isSome = true ∧ s.info_evals_hsort.isSome = true ∧
      n = 0 ∧ s' = s) ∨
    (n = 1 ∧ s' = diag_write eigh s ts ∧
      ¬(force = false ∧ s.info_evals.isSome = true ∧ s.info_evals_hsort.isSome = true)) := by
  by_cases hf : force = true
  · rcases hq : qloop data isotopes use_q
        (mkEntries s.symbols (effList s.symbols il).1) with msg | q_list
    · rw [qconst_run_err eigh data s ts hefg force use_q isotopes il msg
        (Or.inr hf) hq] at h
      simp at h
    · rw [qconst_run_ok eigh data s ts hefg force use_q isotopes il q_list
        (Or.inr hf) hq] at h
      simp only [Except.ok.injEq, Prod.mk.injEq] at h
      right
      refine ⟨h.2.2.symm, h.2.1.symm, ?_⟩
      intro hcon
      rw [hf] at hcon
      simp at hcon
  · have hf' : force = false := by simpa using hf
    subst hf'
    rcases hce : s.info_evals with _ | ev
    · rcases hq : qloop data isotopes use_q
          (mkEntries s.symbols (effList s.symbols il).1) with msg | q_list
      · rw [qconst_run_err eigh data s ts hefg false use_q isotopes il msg
          (Or.inl (by simp [hce])) hq] at h
        simp at h
      · rw [qconst_run_ok eigh data s ts hefg false use_q isotopes il q_list
          (Or.inl (by simp [hce])) hq] at h
        simp only [Except.ok.injEq, Prod.mk.injEq] at h
        right
        refine ⟨h.2.2.symm, h.2.1.symm, ?_⟩
        intro hcon
        simp at hcon
    · rcases hq : qloop data isotopes use_q
          (mkEntries s.symbols (effList s.symbols il).1) with msg | q_list
      · rw [qconst_cached_err eigh data s ts hefg use_q isotopes il ev msg hce hq] at h
        simp at h
      · rcases hch : s.info_evals_hsort with _ | hsrt
        · rw [qconst_mixed_ok eigh data s ts hefg use_q isotopes il ev q_list
            hce hch hq] at h
          simp only [Except.ok.injEq, Prod.mk.injEq] at h
          right
          refine ⟨h.2.2.symm, h.2.1.symm, ?_⟩
          intro hcon
          simp at hcon
        · rw [qconst_cached_ok eigh data s ts hefg use_q isotopes il ev hsrt q_list
            hce hch hq] at h
          simp only [Except.ok.injEq, Prod.mk.injEq] at h
          left
          exact ⟨rfl, by simp [hce], by simp [hch], h.2.2.symm, h.2.1.symm⟩

theorem memo_qconst (eigh : Mat3 → EigenSys) (nmr : Option NMRData) (s : Atoms)
    (ts : List Mat3) (hefg : s.efg = some ts) (force use_q : Bool)
    (isotopes : List (String × String)) (il : Option (List (Option String))) :
    MemoContract
      (fun s f => (EFGQuadrupolarConstant_extract eigh nmr s f use_q isotopes il).1)
      (fun s => s.info_evals.isSome && s.info_evals_hsort.isSome) s force := by
  rcases nmr with _ | data
  · have hno := qconst_no_data eigh s ts hefg force use_q isotopes il
    refine ⟨?_, ?_, ?_⟩
    · intro r s' n h
      simp only [hno] at h
      simp at h
    · intro _ _ r s' n h
      simp only [hno] at h
      simp at h
    · intro _ r s' n h
      simp only [hno] at h
      simp at h
  · refine ⟨?_, ?_, ?_⟩
    · intro r s' n h
      rcases qconst_ok_cases eigh data s ts hefg force use_q isotopes il r s' n h
        with hcase | hcase
      · omega
      · omega
    · intro hcache hforce r s' n h
      subst hforce
      rcases qconst_ok_cases eigh data s ts hefg false use_q isotopes il r s' n h
        with hcase | hcase
      · exact ⟨hcase.2.2.2.1, hcase.2.2.2.2⟩
      · exfalso
        simp only [Bool.and_eq_true] at hcache
        exact hcase.2.2 ⟨rfl, hcache.1, hcache.2⟩
    · intro hrun r s' n h
      rcases qconst_ok_cases eigh data s ts hefg force use_q isotopes il r s' n h
        with hcase | hcase
      · exfalso
        rcases hrun with hrun | hrun
        · simp only [Bool.and_eq_true] at hrun
          rw [hcase.2.1, hcase.2.2.1] at hrun
          simp at hrun
        · rw [hcase.1] at hrun
          simp at hrun
      · refine ⟨hcase.1, ?_, ?_, ?_⟩ <;> rw [hcase.2.1] <;> simp [diag_write]

/-- C4: every derived-quantity operation (Vzz, anisotropy, reduced
anisotropy, asymmetry, span, skew, quadrupolar constant) performs at most
one diagonalization pass per call; when the named cache entries it consults
are present and the force-recompute flag is unset it reuses them, running no
pass and leaving the store untouched; otherwise it runs exactly one pass
which writes the plain eigenvalues, the Haeberlen-sorted eigenvalues and the
eigenvectors as three named entries. -/
theorem derived_ops_memoization (eigh : Mat3 → EigenSys) (nmr : Option NMRData)
    (s : Atoms) (ts : List Mat3) (hefg : s.efg = some ts) (force use_q : Bool)
    (isotopes : List (String × String)) (il : Option (List (Option String))) :
    MemoContract (EFGVzz_extract eigh) (fun s => s.info_evals_hsort.isSome) s force ∧
    MemoContract (EFGAnisotropy_extract eigh)
      (fun s => s.info_evals_hsort.isSome) s force ∧
    MemoContract (EFGReducedAnisotropy_extract eigh)
      (fun s => s.info_evals_hsort.isSome) s force ∧
    MemoContract (EFGAsymmetry_extract eigh)
      (fun s => s.info_evals_hsort.isSome) s force ∧
    MemoContract (EFGSpan_extract eigh) (fun s => s.info_evals.isSome) s force ∧
    MemoContract (EFGSkew_extract eigh) (fun s => s.info_evals.isSome) s force ∧
    MemoContract
      (fun s f => (EFGQuadrupolarConstant_extract eigh nmr s f use_q isotopes il).1)
      (fun s => s.info_evals.isSome && s.info_evals_hsort.isSome) s force :=
  ⟨memo_hsortOp eigh Vec3.c s ts hefg force,
   memo_hsortOp eigh (fun t => _anisotropy t false) s ts hefg force,
   memo_hsortOp eigh (fun t => _anisotropy t true) s ts hefg force,
   memo_hsortOp eigh _asymmetry s ts hefg force,
   memo_rawOp eigh _span s ts hefg force,
   memo_rawOp eigh _skew s ts hefg force,
   memo_qconst eigh nmr s ts hefg force use_q isotopes il⟩

/-- Witness for C4: the contract at the concrete one-atom structure. -/
theorem derived_ops_memoization_witness :
    MemoContract (EFGVzz_extract eigh_diag)
      (fun s => s.info_evals_hsort.isSome) atomsH false ∧
    MemoContract (EFGAnisotropy_extract eigh_diag)
      (fun s => s.info_evals_hsort.isSome) atomsH false ∧
    MemoContract (EFGReducedAnisotropy_extract eigh_diag)
      (fun s => s.info_evals_hsort.isSome) atomsH false ∧
    MemoContract (EFGAsymmetry_extract eigh_diag)
      (fun s => s.info_evals_hsort.isSome) atomsH false ∧
    MemoContract (EFGSpan_extract eigh_diag) (fun s => s.info_evals.isSome) atomsH false ∧
    MemoContract (EFGSkew_extract eigh_diag) (fun s => s.info_evals.isSome) atomsH false ∧
    MemoContract
      (fun s f =>
        (EFGQuadrupolarConstant_extract eigh_diag (some dataH) s f false [] none).1)
      (fun s => s.info_evals.isSome && s.info_evals_hsort.isSome) atomsH false :=
  derived_ops_memoization eigh_diag (some dataH) atomsH [tensorD] rfl false false [] none

theorem qloop_ok_of_moments (data : NMRData) (isotopes : List (String × String))
    (use_q : Bool) (entries : List (String × Option String))
    (h : ∀ p ∈ entries, (resolvedMoment data isotopes use_q p.1 p.2).isSome = true) :
    qloop data isotopes use_q entries
      = .ok (entries.map (fun p => (resolvedMoment data isotopes use_q p.1 p.2).getD 0)) := by
  induction entries with
  | nil => simp [qloop]
  | cons p rest ih =>
    obtain ⟨e, ent⟩ := p
    have h1 := h (e, ent) (by simp)
    rcases hed : List.lookup e data with _ | ed
    · simp [resolvedMoment, hed] at h1
    · rcases hq : List.lookup (resolve_iso isotopes e use_q ed ent) ed.Q with _ | q
      · simp [resolvedMoment, hed, hq] at h1
      · have ih' := ih (fun p hp => h p (by simp [hp]))
        simp [qloop, hed, hq, ih', resolvedMoment]

theorem qloop_err_isotope (data : NMRData) (isotopes : List (String × String))
    (use_q : Bool) (pre : List (String × Option String)) (e : String)
    (ent : Option String) (rest : List (String × Option String)) (ed : ElementData)
    (hpre : ∀ p ∈ pre, (resolvedMoment data isotopes use_q p.1 p.2).isSome = true)
    (hed : List.lookup e data = some ed)
    (hq : List.lookup (resolve_iso isotopes e use_q ed ent) ed.Q = none) :
    qloop data isotopes use_q (pre ++ (e, ent) :: rest)
      = .error (unknownIsotopeMsg (resolve_iso isotopes e use_q ed ent) e) := by
  induction pre with
  | nil => simp [qloop, hed, hq]
  | cons p pre' ih =>
    obtain ⟨e', ent'⟩ := p
    have h1 := hpre (e', ent') (by simp)
    rcases hed' : List.lookup e' data with _ | ed'
    · simp [resolvedMoment, hed'] at h1
    · rcases hq' : List.lookup (resolve_iso isotopes e' use_q ed' ent') ed'.Q with _ | q'
      · simp [resolvedMoment, hed', hq'] at h1
      · have ih' := ih (fun p hp => hpre p (by simp [hp]))
        simp [qloop, hed', hq', ih']

theorem qloop_err_element (data : NMRData) (isotopes : List (String × String))
    (use_q : Bool) (pre : List (String × Option String)) (e : String)
    (ent : Option String) (rest : List (String × Option String))
    (hpre : ∀ p ∈ pre, (resolvedMoment data isotopes use_q p.1 p.2).isSome = true)
    (hed : List.lookup e data = none) :
    qloop data isotopes use_q (pre ++ (e, ent) :: rest)
      = .error (unknownElementMsg e) := by
  induction pre with
  | nil => simp [qloop, hed]
  | cons p pre' ih =>
    obtain ⟨e', ent'⟩ := p
    have h1 := hpre (e', ent') (by simp)
    rcases hed' : List.lookup e' data with _ | ed'
    · simp [resolvedMoment, hed'] at h1
    · rcases hq' : List.lookup (resolve_iso isotopes e' use_q ed' ent') ed'.Q with _ | q'
      · simp [resolvedMoment, hed', hq'] at h1
      · have ih' := ih (fun p hp => hpre p (by simp [hp]))
        simp [qloop, hed', hq', ih']

/-- C3: on a fresh structure, whenever the (element, resolved isotope) pair
of every atom has a moment record, the quadrupolar constant extraction
succeeds and returns per atom `k * Q * Vzz` — `Q` the moment of the resolved
pair, `Vzz` the last (largest-deviation) component of the Haeberlen-sorted
eigenvalue triple, `k` the fixed conversion constant; an atom whose resolved
moment is zero contributes a zero constant, not an error. -/
theorem qconst_k_Q_Vzz (eigh : Mat3 → EigenSys) (data : NMRData) (ts : List Mat3)
    (symbols : List String) (use_q : Bool) (isotopes : List (String × String))
    (il : Option (List (Option String)))
    (hlen : ts.length = symbols.length)
    (hall : ∀ p ∈ mkEntries symbols (effList symbols il).1,
      (resolvedMoment data isotopes use_q p.1 p.2).isSome = true) :
    (EFGQuadrupolarConstant_extract eigh (some data)
        ⟨some ts, symbols, none, none, none⟩ false use_q isotopes il).1
      = .ok (List.zipWith
            (fun p v => kQconst * (resolvedMoment data isotopes use_q p.1 p.2).getD 0 * v)
            (mkEntries symbols (effList symbols il).1)
            (ts.map (fun m => (haeb_sort_row ((eigh (symm3 m)).evals)).c)),
          diag_write eigh ⟨some ts, symbols, none, none, none⟩ ts, 1) := by
  have hq := qloop_ok_of_moments data isotopes use_q _ hall
  have hrun := qconst_run_ok eigh data ⟨some ts, symbols, none, none, none⟩ ts rfl
    false use_q isotopes il _ (Or.inl rfl) hq
  rw [congrArg Prod.fst hrun]
  simp only [List.zipWith_map_left, _haeb_sort, List.map_map]
  rfl

/-- Witness for C3: one hydrogen atom with the §8 tensor; the default
isotope `"1"` has moment 0, so the returned constant is the zero Hz value,
with no error. -/
theorem qconst_k_Q_Vzz_witness :
    (EFGQuadrupolarConstant_extract eigh_diag (some dataH) atomsH false false [] none).1
      = .ok ([0], diag_write eigh_diag atomsH [tensorD], 1) := by
  have hall : ∀ p ∈ mkEntries ["H"] (effList ["H"] (none : Option (List (Option String)))).1,
      (resolvedMoment dataH [] false p.1 p.2).isSome = true := by
    intro p hp
    simp only [mkEntries, effList, List.map, List.mem_singleton] at hp
    subst hp
    simp [resolvedMoment, resolve_iso, dataH, List.lookup]
  have h := qconst_k_Q_Vzz eigh_diag dataH [tensorD] ["H"] false [] none rfl hall
  rw [show atomsH = ⟨some [tensorD], ["H"], none, none, none⟩ from rfl, h]
  norm_num [mkEntries, effList, resolvedMoment, resolve_iso, dataH, eigh_diag,
    tensorD, symm3, sort3, haeb_sort_row, isoAvg, List.lookup]

/-- C7: when the element of some atom is in the dataset but the isotope the
precedence layers select has no record there (all earlier atoms resolving
fine), the whole extraction fails with the unsupported-isotope error naming
that isotope and element, and no result array is produced — also when the
isotope came from a user override. -/
theorem qconst_unsupported_isotope (eigh : Mat3 → EigenSys) (data : NMRData)
    (s : Atoms) (ts : List Mat3) (hefg : s.efg = some ts) (force use_q : Bool)
    (isotopes : List (String × String)) (il : Option (List (Option String)))
    (pre : List (String × Option String)) (e : String) (ent : Option String)
    (rest : List (String × Option String)) (ed : ElementData)
    (hsplit : mkEntries s.symbols (effList s.symbols il).1 = pre ++ (e, ent) :: rest)
    (hpre : ∀ p ∈ pre, (resolvedMoment data isotopes use_q p.1 p.2).isSome = true)
    (hed : List.lookup e data = some ed)
    (hq : List.lookup (resolve_iso isotopes e use_q ed ent) ed.Q = none) :
    (EFGQuadrupolarConstant_extract eigh (some data) s force use_q isotopes il).1
      = .error (unknownIsotopeMsg (resolve_iso isotopes e use_q ed ent) e) := by
  have hloop : qloop data isotopes use_q (mkEntries s.symbols (effList s.symbols il).1)
      = .error (unknownIsotopeMsg (resolve_iso isotopes e use_q ed ent) e) := by
    rw [hsplit]
    exact qloop_err_isotope data isotopes use_q pre e ent rest ed hpre hed hq
  by_cases hrun : s.info_evals.isSome = false ∨ force = true
  · rw [congrArg Prod.fst
      (qconst_run_err eigh data s ts hefg force use_q isotopes il _ hrun hloop)]
  · simp only [not_or, Bool.not_eq_false, Bool.not_eq_true] at hrun
    obtain ⟨h1, h2⟩ := hrun
    obtain ⟨ev, hce⟩ := Option.isSome_iff_exists.mp h1
    subst h2
    rw [congrArg Prod.fst
      (qconst_cached_err eigh data s ts hefg use_q isotopes il ev _ hce hloop)]

/-- Witness for C7: a user override to isotope `"9"`, absent from the
hydrogen record, aborts the extraction with the unsupported-isotope error. -/
theorem qconst_unsupported_isotope_witness :
    (EFGQuadrupolarConstant_extract eigh_diag (some dataH) atomsH false false
        [("H", "9")] none).1
      = .error (unknownIsotopeMsg "9" "H") := by
  have h := qconst_unsupported_isotope eigh_diag dataH atomsH [tensorD] rfl false false
    [("H", "9")] none [] "H" none [] ⟨"1", some "2", [("1", 0), ("2", 7), ("3", 11)]⟩
    rfl (by intro p hp; simp at hp) (by simp [dataH, List.lookup])
    (by simp [resolve_iso, List.lookup])
  simpa [resolve_iso, List.lookup] using h

/-- C8: when the element of some atom has no record in the dataset (all earlier
atoms resolving fine), the whole extraction fails with the
unsupported-element error naming that element; no per-atom result is
produced for any atom, even those with valid elements. -/
theorem qconst_unsupported_element (eigh : Mat3 → EigenSys) (data : NMRData)
    (s : Atoms) (ts : List Mat3) (hefg : s.efg = some ts) (force use_q : Bool)
    (isotopes : List (String × String)) (il : Option (List (Option String)))
    (pre : List (String × Option String)) (e : String) (ent : Option String)
    (rest : List (String × Option String))
    (hsplit : mkEntries s.symbols (effList s.symbols il).1 = pre ++ (e, ent) :: rest)
    (hpre : ∀ p ∈ pre, (resolvedMoment data isotopes use_q p.1 p.2).isSome = true)
    (hed : List.lookup e data = none) :
    (EFGQuadrupolarConstant_extract eigh (some data) s force use_q isotopes il).1
      = .error (unknownElementMsg e) := by
  have hloop : qloop data isotopes use_q (mkEntries s.symbols (effList s.symbols il).1)
      = .error (unknownElementMsg e) := by
    rw [hsplit]
    exact qloop_err_element data isotopes use_q pre e ent rest hpre hed
  by_cases hrun : s.info_evals.isSome = false ∨ force = true
  · rw [congrArg Prod.fst
      (qconst_run_err eigh data s ts hefg force use_q isotopes il _ hrun hloop)]
  · simp only [not_or, Bool.not_eq_false, Bool.not_eq_true] at hrun
    obtain ⟨h1, h2⟩ := hrun
    obtain ⟨ev, hce⟩ := Option.isSome_iff_exists.mp h1
    subst h2
    rw [congrArg Prod.fst
      (qconst_cached_err eigh data s ts hefg use_q isotopes il ev _ hce hloop)]

/-- Witness for C8: a two-atom batch `["H", "X"]` where `"X"` is absent from
the dataset and the hydrogen atom would have resolved fine. -/
theorem qconst_unsupported_element_witness :
    (EFGQuadrupolarConstant_extract eigh_diag (some dataH)
        ⟨some [tensorD, tensorD], ["H", "X"], none, none, none⟩
        false false [] none).1
      = .error (unknownElementMsg "X") := by
  have h := qconst_unsupported_element eigh_diag dataH
    ⟨some [tensorD, tensorD], ["H", "X"], none, none, none⟩ [tensorD, tensorD] rfl
    false false [] none [("H", none)] "X" none [] rfl
    (by
      intro p hp
      simp only [List.mem_singleton] at hp
      subst hp
      simp [resolvedMoment, resolve_iso, dataH, List.lookup])
    (by simp [dataH, List.lookup])
  exact h

theorem qconst_as_qcont (eigh : Mat3 → EigenSys) (data : NMRData) (s : Atoms)
    (force use_q : Bool) (isotopes : List (String × String))
    (il : Option (List (Option String))) (s1 : Atoms) (n1 : ℕ)
    (hefg : s.efg.isNone = false)
    (hd : diag_if_needed eigh s s.info_evals.isSome force = .ok (s1, n1)) :
    EFGQuadrupolarConstant_extract eigh (some data) s force use_q isotopes il
      = (qcont eigh s1 n1
          (qloop data isotopes use_q (mkEntries s1.symbols (effList s1.symbols il).1)),
         (effList s1.symbols il).2) := by
  rcases hq : qloop data isotopes use_q (mkEntries s1.symbols (effList s1.symbols il).1)
    with msg | q_list
  · simp [EFGQuadrupolarConstant_extract, hefg, hd, hq, qcont]
  · rcases hv : EFGVzz_extract eigh s1 false with msg | ⟨vzz, s2, n2⟩
    · simp [EFGQuadrupolarConstant_extract, hefg, hd, hq, hv, qcont]
    · simp [EFGQuadrupolarConstant_extract, hefg, hd, hq, hv, qcont]

theorem qloop_entries_fst (data : NMRData) (isotopes : List (String × String))
    (use_q : Bool) : ∀ l1 l2 : List (String × Option String),
    l1.map Prod.fst = l2.map Prod.fst →
    qloop data isotopes use_q l1 = qloop data isotopes use_q l2 := by
  intro l1
  induction l1 with
  | nil =>
    intro l2 h
    cases l2 with
    | nil => rfl
    | cons p l2' => simp at h
  | cons p rest ih =>
    intro l2 h
    cases l2 with
    | nil => simp at h
    | cons p2 rest2 =>
      obtain ⟨e, ent⟩ := p
      obtain ⟨e2, ent2⟩ := p2
      simp only [List.map_cons, List.cons.injEq] at h
      obtain ⟨he, hrest⟩ := h
      subst he
      have hrec := ih rest2 hrest
      simp only [qloop, resolve_iso, hrec]

theorem mkEntries_fst (elems : List String) (il : Option (List (Option String))) :
    (mkEntries elems (effList elems il).1).map Prod.fst = elems := by
  rcases il with _ | l
  · simp [effList, mkEntries, Function.comp_def]
  · by_cases hl : l.length ≠ elems.length
    · simp [effList, hl, mkEntries, Function.comp_def]
    · push_neg at hl
      simp only [effList, if_neg (not_not_intro hl), mkEntries]
      exact List.map_fst_zip elems l (le_of_eq hl.symm)

theorem effList_warn (elems : List String) (il : Option (List (Option String))) :
    ((effList elems il).2 = true) ↔ ∃ l, il = some l ∧ l.length ≠ elems.length := by
  rcases il with _ | l
  · simp [effList]
  · by_cases hl : l.length ≠ elems.length
    · simp [effList, hl]
    · push_neg at hl
      simp [effList, hl]

/-- C10: the result (values or error) of `EFGQuadrupolarConstant.extract`
does not depend on `isotope_list` in any way — `none`, a wrong-length list,
or any correct-length list of entries is the same; the only observable
difference is the printed warning, emitted exactly for a supplied list of
the wrong length (reached only when the EFG data and the dataset exist). -/
theorem qconst_isotope_list_invariant (eigh : Mat3 → EigenSys)
    (nmr : Option NMRData) (s : Atoms) (force use_q : Bool)
    (isotopes : List (String × String))
    (il1 il2 : Option (List (Option String))) :
    (EFGQuadrupolarConstant_extract eigh nmr s force use_q isotopes il1).1
      = (EFGQuadrupolarConstant_extract eigh nmr s force use_q isotopes il2).1 ∧
    ((EFGQuadrupolarConstant_extract eigh nmr s force use_q isotopes il1).2 = true ↔
      s.efg.isNone = false ∧ nmr.isSome = true ∧
        ∃ l, il1 = some l ∧ l.length ≠ s.symbols.length) := by
  rcases hefg : s.efg with _ | ts
  · constructor
    · simp [EFGQuadrupolarConstant_extract, hefg]
    · simp [EFGQuadrupolarConstant_extract, hefg]
  · have hne : s.efg.isNone = false := by simp [hefg]
    rcases nmr with _ | data
    · have h1 := qconst_no_data eigh s ts hefg force use_q isotopes il1
      have h2 := qconst_no_data eigh s ts hefg force use_q isotopes il2
      constructor
      · rw [h1, h2]
      · rw [h1]
        simp
    · obtain ⟨s1, n1, hd, hsym⟩ : ∃ s1 n1,
          diag_if_needed eigh s s.info_evals.isSome force = .ok (s1, n1) ∧
          s1.symbols = s.symbols := by
        rcases diag_if_needed_ok eigh s ts hefg s.info_evals.isSome force with hd | hd
        · exact ⟨s, 0, hd, rfl⟩
        · exact ⟨diag_write eigh s ts, 1, hd, diag_write_symbols eigh s ts⟩
      rw [qconst_as_qcont eigh data s force use_q isotopes il1 s1 n1 hne hd,
          qconst_as_qcont eigh data s force use_q isotopes il2 s1 n1 hne hd]
      constructor
      · dsimp only
        congr 1
        apply qloop_entries_fst
        rw [mkEntries_fst, mkEntries_fst]
      · dsimp only
        rw [hsym, effList_warn]
        simp [hne]

/-- C1 (counterexample to the stated precedence): a non-`None` per-atom
`isotope_list` entry does NOT win.  With element `"H"`, override mapping
`{"H": "2"}` and per-atom entry `"3"`, the resolved isotope is `"2"`; with
an empty mapping it is the dataset default `"1"`; and end to end, the
quadrupolar constant is computed from the moment 7 of isotope `"2"`, not
from the moment 11 of isotope `"3"`.  The `if e in isotopes / elif / else` chain of
`EFGQuadrupolarConstant.extract` reassigns `iso` on every branch after the
`isotope_list` check, so the list entry is dead. -/
theorem isotope_list_entry_overwritten :
    resolve_iso [("H", "2")] "H" false ⟨"1", some "2", [("1", 0), ("2", 7), ("3", 11)]⟩
        (some "3") = "2" ∧
    resolve_iso [] "H" false ⟨"1", some "2", [("1", 0), ("2", 7), ("3", 11)]⟩
        (some "3") = "1" ∧
    (EFGQuadrupolarConstant_extract eigh_diag (some dataH) atomsH false false
        [("H", "2")] (some [some "3"])).1
      = .ok ([kQconst * 7 * -2], diag_write eigh_diag atomsH [tensorD], 1) := by
  refine ⟨by simp [resolve_iso, List.lookup], by simp [resolve_iso, List.lookup], ?_⟩
  have hall : ∀ p ∈ mkEntries ["H"] (effList ["H"] (some [some "3"])).1,
      (resolvedMoment dataH [("H", "2")] false p.1 p.2).isSome = true := by
    intro p hp
    simp [mkEntries, effList] at hp
    subst hp
    simp [resolvedMoment, resolve_iso, dataH, List.lookup]
  have h := qconst_k_Q_Vzz eigh_diag dataH [tensorD] ["H"] false [("H", "2")]
    (some [some "3"]) rfl hall
  rw [show atomsH = ⟨some [tensorD], ["H"], none, none, none⟩ from rfl, h]
  norm_num [mkEntries, effList, resolvedMoment, resolve_iso, dataH, eigh_diag,
    tensorD, symm3, sort3, haeb_sort_row, isoAvg, List.lookup]
  left
  rfl
